import Mathlib

/-!
Shallow embedding of `src/src/lambda_function.py` (ManageEIPs reconciliation
lambda) and verification of its specification.

Modelling choices:
- AWS tag dictionaries (`{"Key": ..., "Value": ...}`) become a `Tag` structure
  whose fields are `Option String`, since Python's `dict.get` returns `None`
  for an absent field.
- An elastic IP snapshot carries its allocation id, an optional tag list
  (`elastic_ip.tags` may be `None`), and an optional associated instance id
  (`elastic_ip.instance_id is not None` is the association test in the code).
- External failures raised by boto3 calls are injected through a `Behavior`
  value attached to each resource: `failEval` stands for an exception raised
  while reading the resource's attributes (before any bucket counter is
  incremented), `failRelease` for an exception raised by the
  `elastic_ip.release()` call. `ErrKind.client` is botocore's `ClientError`
  carrying its machine-readable error code; `ErrKind.generic` is any other
  Python exception.
- A Python exception propagating out of `lambda_handler` is an
  `Except.error`; it carries the error together with the counter state the
  local variables held at the moment of the raise.
- Observable side effects (the release call, error log lines, the end-of-run
  summary log, the EMF metrics record) are recorded in an event trace.
-/

/-- One AWS tag entry `{"Key": k, "Value": v}`; either field may be absent. -/
structure Tag where
  key : Option String
  value : Option String
deriving Repr, DecidableEq

/-- Embeds `_get_tag_value(tags, key)` (lines 26-38): linear scan returning
the `Value` of the first entry whose `Key` equals `key`; `None` for an empty
list or when no entry matches. The Python guard `if not tags: return None`
and the final `return None` both map to the `none` results here. -/
def _get_tag_value : List Tag → String → Option String
  | [], _ => none
  | t :: rest, key => if t.key = some key then t.value else _get_tag_value rest key

/-- Snapshot of one `elastic_ip` from `ec2_resource.vpc_addresses.all()`. -/
structure ElasticIp where
  allocation_id : String
  tags : Option (List Tag)
  instance_id : Option String
deriving Repr, DecidableEq

/-- Configuration read at run start (lines 79-92), after resolution of
environment variables and the payload override. -/
structure Config where
  managedTagKey : String
  managedTagValue : String
  protectTagKey : String
  protectTagValue : String
  dryRun : Bool
deriving Repr, DecidableEq

/-- Embeds Python's `str.lower()` on the configuration strings involved
(character-wise lowercasing). -/
def strLower (s : String) : String := ⟨s.data.map Char.toLower⟩

/-- Embeds line 79:
`str(event.get("dry_run", os.getenv("DRY_RUN", "false"))).lower() == "true"`.
Both sources are modelled post-`str(...)`: `some s` means the key/variable is
present and stringifies to `s`. -/
def resolveDryRun (eventDryRun : Option String) (envDryRun : Option String) : Bool :=
  strLower (eventDryRun.getD (envDryRun.getD "false")) == "true"

/-- Run counters (lines 112-118), all initialised to zero. -/
structure Counters where
  scanned : Nat
  skipped_not_managed : Nat
  skipped_protected : Nat
  associated : Nat
  would_release : Nat
  released : Nat
  per_eip_errors : Nat
deriving Repr, DecidableEq

def initCounters : Counters := ⟨0, 0, 0, 0, 0, 0, 0⟩

/-- Sum of the six disposition/error buckets. -/
def Counters.bucketSum (c : Counters) : Nat :=
  c.skipped_not_managed + c.skipped_protected + c.associated +
    c.would_release + c.released + c.per_eip_errors

/-- Kind of exception raised by an external call: botocore `ClientError`
with its machine-readable code, or any other Python exception. -/
inductive ErrKind where
  | client (code : String)
  | generic (name : String)
deriving Repr, DecidableEq

/-- Error injection for one resource: no failure, a failure while reading the
resource's attributes (tags / instance_id, lines 125-149, before any bucket
counter is touched), or a failure raised by `elastic_ip.release()` (line 171,
consulted only when the release call is actually made). -/
inductive Behavior where
  | ok
  | failEval (e : ErrKind)
  | failRelease (e : ErrKind)
deriving Repr, DecidableEq

/-- Observable side effects of a run. -/
inductive Event where
  | releaseCall (allocationId : String)
  | clientErrorLog (allocationId : String) (code : String)
  | unexpectedErrorLog (allocationId : String) (errType : String)
  | summaryLog (c : Counters)
  | metricsRecord (c : Counters)
deriving Repr, DecidableEq

/-- Reporting events: the end-of-run summary log (lines 224-235) and the EMF
metrics record (lines 239-252). -/
def Event.isReport : Event → Bool
  | .summaryLog _ => true
  | .metricsRecord _ => true
  | _ => false

def isAbort {ε α : Type} : Except ε α → Bool
  | .error _ => true
  | .ok _ => false

/-- The fixed set of systemic auth/credential error codes (lines 191-199). -/
def fatalCodes : List String :=
  ["AccessDenied", "AccessDeniedException", "UnauthorizedOperation",
   "UnrecognizedClientException", "InvalidClientTokenId",
   "SignatureDoesNotMatch", "ExpiredToken"]

/-- Embeds the two `except` blocks (lines 174-218). A `ClientError` first
increments `per_eip_errors`, logs, then re-raises when its code is in
`fatalCodes` and continues otherwise; any other exception logs and
re-raises without touching the counter. An `Except.error` carries the
counter state held by the local variables at the raise. -/
def handleError (c : Counters) (allocationId : String) (e : ErrKind) :
    List Event × Except (ErrKind × Counters) Counters :=
  match e with
  | .client code =>
    let c' := { c with per_eip_errors := c.per_eip_errors + 1 }
    ([Event.clientErrorLog allocationId code],
      if code ∈ fatalCodes then Except.error (e, c') else Except.ok c')
  | .generic name =>
    ([Event.unexpectedErrorLog allocationId name], Except.error (e, c))

/-- Dispositions of the per-resource policy (spec section 4.1); the decision
chain is inlined in the loop body at lines 125-172. -/
inductive Disposition where
  | skippedNotManaged
  | skippedProtected
  | skippedAssociated
  | wouldRelease
  | released
deriving Repr, DecidableEq

/-- Pure decision chain of the loop body (lines 125-154): allow-list check,
then deny-list check, then association check, then dry-run split. -/
def evaluate (cfg : Config) (r : ElasticIp) : Disposition :=
  let tags := r.tags.getD []
  if _get_tag_value tags cfg.managedTagKey ≠ some cfg.managedTagValue then
    Disposition.skippedNotManaged
  else if _get_tag_value tags cfg.protectTagKey = some cfg.protectTagValue then
    Disposition.skippedProtected
  else if r.instance_id ≠ none then
    Disposition.skippedAssociated
  else if cfg.dryRun then
    Disposition.wouldRelease
  else
    Disposition.released

/-- Embeds one iteration of the `for elastic_ip in ...` body (lines 120-218):
`scanned` is incremented before the `try` block; the decision chain then
increments exactly one bucket, invoking `elastic_ip.release()` only on the
managed/unprotected/unassociated non-dry-run path; exceptions go to
`handleError`. -/
def processOne (cfg : Config) (c0 : Counters) (r : ElasticIp) (b : Behavior) :
    List Event × Except (ErrKind × Counters) Counters :=
  let c := { c0 with scanned := c0.scanned + 1 }
  match b with
  | .failEval e => handleError c r.allocation_id e
  | _ =>
    let tags := r.tags.getD []
    let managed_val := _get_tag_value tags cfg.managedTagKey
    let protect_val := _get_tag_value tags cfg.protectTagKey
    if managed_val ≠ some cfg.managedTagValue then
      ([], Except.ok { c with skipped_not_managed := c.skipped_not_managed + 1 })
    else if protect_val = some cfg.protectTagValue then
      ([], Except.ok { c with skipped_protected := c.skipped_protected + 1 })
    else if r.instance_id ≠ none then
      ([], Except.ok { c with associated := c.associated + 1 })
    else if cfg.dryRun then
      ([], Except.ok { c with would_release := c.would_release + 1 })
    else
      match b with
      | .failRelease e =>
        let he := handleError c r.allocation_id e
        (Event.releaseCall r.allocation_id :: he.1, he.2)
      | _ =>
        ([Event.releaseCall r.allocation_id],
          Except.ok { c with released := c.released + 1 })

/-- Sequential consumption of the resource sequence (lines 120-218): each
resource is fully processed before the next; a re-raised exception aborts
the fold. -/
def runLoop (cfg : Config) :
    List (ElasticIp × Behavior) → Counters →
      List Event × Except (ErrKind × Counters) Counters
  | [], c => ([], Except.ok c)
  | (r, b) :: rest, c =>
    match processOne cfg c r b with
    | (evs, Except.ok c') =>
      (evs ++ (runLoop cfg rest c').1, (runLoop cfg rest c').2)
    | (evs, Except.error x) => (evs, Except.error x)

structure HandlerResult where
  statusCode : Nat
  body : String
deriving Repr, DecidableEq

/-- Embeds `lambda_handler` (lines 76-258) from the point the counters are
initialised: run the loop; on normal completion emit the summary log, then
the metrics record when metrics are enabled, and return the 200 response;
a re-raised exception propagates to the caller with no summary emitted. -/
def lambda_handler (cfg : Config) (metricsEnabled : Bool)
    (addresses : List (ElasticIp × Behavior)) :
    List Event × Except (ErrKind × Counters) HandlerResult :=
  match runLoop cfg addresses initCounters with
  | (evs, Except.ok c) =>
    (evs ++ [Event.summaryLog c] ++
      (if metricsEnabled then [Event.metricsRecord c] else []),
      Except.ok ⟨200, "Processed elastic IPs."⟩)
  | (evs, Except.error x) => (evs, Except.error x)

/-! Concrete fixtures used by witnesses and counterexamples. -/

def cfgWet : Config := ⟨"ManagedBy", "ManageEIPs", "Protection", "DoNotRelease", false⟩

def cfgDry : Config := ⟨"ManagedBy", "ManageEIPs", "Protection", "DoNotRelease", true⟩

def rMan : ElasticIp := ⟨"eipalloc-1", some [⟨some "ManagedBy", some "ManageEIPs"⟩], none⟩

def rUnman : ElasticIp := ⟨"eipalloc-2", none, none⟩

def rProt : ElasticIp :=
  ⟨"eipalloc-3",
    some [⟨some "ManagedBy", some "ManageEIPs"⟩, ⟨some "Protection", some "DoNotRelease"⟩],
    none⟩

def rAssoc : ElasticIp := ⟨"eipalloc-4", some [⟨some "ManagedBy", some "ManageEIPs"⟩], some "i-123"⟩

/-! Helper lemmas. -/

lemma handleError_ok_bucket {c : Counters} {aid : String} {e : ErrKind} {c' : Counters}
    (h : (handleError c aid e).2 = Except.ok c') :
    c'.scanned = c.scanned ∧ c'.bucketSum = c.bucketSum + 1 := by
  cases e with
  | client code =>
    simp only [handleError] at h
    split at h
    · simp at h
    · injection h with h'
      subst h'
      simp [Counters.bucketSum]
      omega
  | generic name =>
    simp only [handleError] at h
    simp at h

lemma processOne_ok_bucket {cfg : Config} {c : Counters} {r : ElasticIp} {b : Behavior}
    {c' : Counters}
    (h : (processOne cfg c r b).2 = Except.ok c') :
    c'.scanned = c.scanned + 1 ∧ c'.bucketSum = c.bucketSum + 1 := by
  cases b with
  | failEval e =>
    simp only [processOne] at h
    have := handleError_ok_bucket h
    simpa [Counters.bucketSum] using this
  | ok =>
    simp only [processOne] at h
    split at h <;>
      [skip; split at h] <;>
      [skip; skip; split at h] <;>
      [skip; skip; skip; split at h] <;>
      · injection h with h'
        subst h'
        simp [Counters.bucketSum]
        omega
  | failRelease e =>
    simp only [processOne] at h
    split at h
    · injection h with h'; subst h'; simp [Counters.bucketSum]; omega
    · split at h
      · injection h with h'; subst h'; simp [Counters.bucketSum]; omega
      · split at h
        · injection h with h'; subst h'; simp [Counters.bucketSum]; omega
        · split at h
          · injection h with h'; subst h'; simp [Counters.bucketSum]; omega
          · have := handleError_ok_bucket h
            simpa [Counters.bucketSum] using this

lemma runLoop_ok_invariant {cfg : Config} :
    ∀ {input : List (ElasticIp × Behavior)} {c : Counters} {evs : List Event} {c' : Counters},
      runLoop cfg input c = (evs, Except.ok c') →
      c.scanned = c.bucketSum → c'.scanned = c'.bucketSum := by
  intro input
  induction input with
  | nil =>
    intro c evs c' h hinv
    simp only [runLoop, Prod.mk.injEq] at h
    obtain ⟨-, h2⟩ := h
    injection h2 with h2
    subst h2
    exact hinv
  | cons hd rest ih =>
    intro c evs c' h hinv
    obtain ⟨r, b⟩ := hd
    simp only [runLoop] at h
    rcases hp : processOne cfg c r b with ⟨evs1, res⟩
    rw [hp] at h
    cases res with
    | ok c1 =>
      simp only [Prod.mk.injEq] at h
      have hb := processOne_ok_bucket
        (show (processOne cfg c r b).2 = Except.ok c1 by rw [hp])
      have hinv1 : c1.scanned = c1.bucketSum := by omega
      rcases ht : runLoop cfg rest c1 with ⟨evs2, res2⟩
      rw [ht] at h
      obtain ⟨-, h2⟩ := h
      cases res2 with
      | ok c2 =>
        injection h2 with h2
        subst h2
        exact ih ht hinv1
      | error x => simp at h2
    | error x =>
      simp only [Prod.mk.injEq] at h
      simp at h

/-- C1: every run of the reconciliation loop over a finite resource sequence
that completes without a fatal abort satisfies
`scanned = skippedNotManaged + skippedProtected + associated + wouldRelease +
released + perResourceErrors`: each scanned resource contributes exactly one
increment to exactly one of the six disposition/error buckets. -/
theorem counter_sum_invariant (cfg : Config) (input : List (ElasticIp × Behavior))
    (evs : List Event) (c : Counters)
    (h : runLoop cfg input initCounters = (evs, Except.ok c)) :
    c.scanned = c.skipped_not_managed + c.skipped_protected + c.associated +
      c.would_release + c.released + c.per_eip_errors := by
  have := runLoop_ok_invariant h (by simp [initCounters, Counters.bucketSum])
  simpa [Counters.bucketSum] using this

/-- Witness for C1 at a concrete five-resource run (two unmanaged, one
protected, one associated, one released). -/
theorem counter_sum_invariant_witness :
    (5 : Nat) = 2 + 1 + 1 + 0 + 1 + 0 :=
  counter_sum_invariant cfgWet
    [(rUnman, .ok), (rUnman, .ok), (rProt, .ok), (rAssoc, .ok), (rMan, .ok)]
    [Event.releaseCall "eipalloc-1"] ⟨5, 2, 1, 1, 0, 1, 0⟩ rfl

/-- C2: for every managed, unprotected, unassociated resource: under dry-run
the run counts it as would-release and invokes no release side effect; under
non-dry-run the release operation is invoked exactly once and, on success,
the resource is counted as released. -/
theorem release_path (cfg : Config) (r : ElasticIp) (c : Counters)
    (hm : _get_tag_value (r.tags.getD []) cfg.managedTagKey = some cfg.managedTagValue)
    (hp : _get_tag_value (r.tags.getD []) cfg.protectTagKey ≠ some cfg.protectTagValue)
    (ha : r.instance_id = none) :
    (cfg.dryRun = true →
      processOne cfg c r Behavior.ok =
        ([], Except.ok { c with scanned := c.scanned + 1,
                                would_release := c.would_release + 1 })) ∧
    (cfg.dryRun = false →
      processOne cfg c r Behavior.ok =
        ([Event.releaseCall r.allocation_id],
          Except.ok { c with scanned := c.scanned + 1,
                             released := c.released + 1 })) := by
  constructor <;> intro hd <;> simp [processOne, hm, hp, ha, hd]

/-- Witness for C2: the managed, unprotected, unassociated fixture under
non-dry-run is released with exactly one release invocation. -/
theorem release_path_witness :
    processOne cfgWet initCounters rMan Behavior.ok =
      ([Event.releaseCall "eipalloc-1"],
        Except.ok { initCounters with scanned := 1, released := 1 }) :=
  (release_path cfgWet rMan initCounters rfl (by decide) rfl).2 rfl

/-- C3: a per-resource failure aborts the run iff its machine-readable code
is one of the systemic auth/credential codes or the error is not a recognized
external-API (`ClientError`) shape; every other `ClientError` is logged,
counted in `per_eip_errors`, and the loop continues with the next resource,
while an aborting step propagates to the caller. -/
theorem error_classification (c : Counters) (aid : String) (e : ErrKind) :
    (isAbort (handleError c aid e).2 = true ↔
      (∃ code, e = ErrKind.client code ∧ code ∈ fatalCodes) ∨
        ∃ n, e = ErrKind.generic n) ∧
    (∀ code, e = ErrKind.client code → code ∉ fatalCodes →
      handleError c aid e =
        ([Event.clientErrorLog aid code],
          Except.ok { c with per_eip_errors := c.per_eip_errors + 1 })) ∧
    (∀ cfg rest r b evs x, processOne cfg c r b = (evs, Except.error x) →
      runLoop cfg ((r, b) :: rest) c = (evs, Except.error x)) ∧
    (∀ cfg rest r b evs c1, processOne cfg c r b = (evs, Except.ok c1) →
      runLoop cfg ((r, b) :: rest) c =
        (evs ++ (runLoop cfg rest c1).1, (runLoop cfg rest c1).2)) := by
  refine ⟨?_, ?_, ?_, ?_⟩
  · cases e with
    | client code =>
      by_cases hc : code ∈ fatalCodes <;> simp [handleError, isAbort, hc]
    | generic n => simp [handleError, isAbort]
  · intro code he hnc
    subst he
    simp [handleError, hnc]
  · intro cfg rest r b evs x hp
    simp [runLoop, hp]
  · intro cfg rest r b evs c1 hp
    simp [runLoop, hp]

/-- Witness for C3: a throttling `ClientError` is counted and the loop
continues. -/
theorem error_classification_witness :
    handleError initCounters "eipalloc-9" (ErrKind.client "Throttling") =
      ([Event.clientErrorLog "eipalloc-9" "Throttling"],
        Except.ok { initCounters with per_eip_errors := 1 }) :=
  (error_classification initCounters "eipalloc-9" (ErrKind.client "Throttling")).2.1
    "Throttling" rfl (by decide)

/-- Number of reporting events (summary log or metrics record) in a trace. -/
def reportCount (evs : List Event) : Nat := evs.countP Event.isReport

lemma handleError_events_no_report (c : Counters) (aid : String) (e : ErrKind) :
    ∀ ev ∈ (handleError c aid e).1, ev.isReport = false := by
  cases e <;> simp [handleError, Event.isReport]

lemma processOne_events_no_report (cfg : Config) (c : Counters) (r : ElasticIp)
    (b : Behavior) :
    ∀ ev ∈ (processOne cfg c r b).1, ev.isReport = false := by
  cases b with
  | failEval e =>
    simpa [processOne] using
      handleError_events_no_report { c with scanned := c.scanned + 1 } r.allocation_id e
  | ok =>
    simp only [processOne]
    split
    · simp
    · split
      · simp
      · split
        · simp
        · split
          · simp
          · simp [Event.isReport]
  | failRelease e =>
    simp only [processOne]
    split
    · simp
    · split
      · simp
      · split
        · simp
        · split
          · simp
          · intro ev hev
            rcases List.mem_cons.mp hev with h | h
            · subst h; rfl
            · exact handleError_events_no_report _ r.allocation_id e ev h

lemma runLoop_events_no_report (cfg : Config) :
    ∀ (input : List (ElasticIp × Behavior)) (c : Counters),
      ∀ ev ∈ (runLoop cfg input c).1, ev.isReport = false := by
  intro input
  induction input with
  | nil => intro c ev hev; simp [runLoop] at hev
  | cons hd rest ih =>
    intro c ev hev
    obtain ⟨r, b⟩ := hd
    simp only [runLoop] at hev
    rcases hp : processOne cfg c r b with ⟨evs1, res⟩
    rw [hp] at hev
    cases res with
    | ok c1 =>
      simp only [List.mem_append] at hev
      rcases hev with h | h
      · exact processOne_events_no_report cfg c r b ev (by rw [hp]; exact h)
      · exact ih c1 ev h
    | error x =>
      exact processOne_events_no_report cfg c r b ev (by rw [hp]; exact hev)

/-- C4 counterexample: a fatal `AccessDenied` on the release call of a
managed, unprotected, unassociated resource aborts the handler, and the
emitted trace contains no end-of-run summary log and no metrics record —
the accumulated counters are not reported. -/
theorem fatal_abort_summary_cex :
    isAbort (lambda_handler cfgWet true
      [(rMan, Behavior.failRelease (ErrKind.client "AccessDenied"))]).2 = true ∧
    reportCount (lambda_handler cfgWet true
      [(rMan, Behavior.failRelease (ErrKind.client "AccessDenied"))]).1 = 0 := by
  decide

/-- C4 amended: when a per-resource error is classified fatal, the loop
aborts immediately and the failure propagates to the caller; the end-of-run
summary log and metrics record are NOT emitted — the `raise` inside the loop
body skips the post-loop reporting entirely. -/
theorem fatal_abort_no_summary (cfg : Config) (metricsEnabled : Bool)
    (input : List (ElasticIp × Behavior)) (evs : List Event)
    (x : ErrKind × Counters)
    (h : lambda_handler cfg metricsEnabled input = (evs, Except.error x)) :
    reportCount evs = 0 := by
  have hall : ∀ ev ∈ evs, ev.isReport = false := by
    simp only [lambda_handler] at h
    rcases hr : runLoop cfg input initCounters with ⟨evs1, res⟩
    rw [hr] at h
    cases res with
    | ok c => simp at h
    | error y =>
      simp only [Prod.mk.injEq] at h
      obtain ⟨h1, -⟩ := h
      subst h1
      intro ev hev
      exact runLoop_events_no_report cfg input initCounters ev (by rw [hr]; exact hev)
  simp only [reportCount, List.countP_eq_zero]
  intro ev hev
  simp [hall ev hev]

/-- Witness for C4's amended statement at the counterexample run. -/
theorem fatal_abort_no_summary_witness :
    reportCount [Event.releaseCall "eipalloc-1",
      Event.clientErrorLog "eipalloc-1" "AccessDenied"] = 0 :=
  fatal_abort_no_summary cfgWet true
    [(rMan, Behavior.failRelease (ErrKind.client "AccessDenied"))]
    [Event.releaseCall "eipalloc-1", Event.clientErrorLog "eipalloc-1" "AccessDenied"]
    (ErrKind.client "AccessDenied", ⟨1, 0, 0, 0, 0, 0, 1⟩) rfl

/-- Value of `per_eip_errors` in the outcome of a step: the resulting counter
state on a normal step, or the counter state the local variables held at the
raise on an aborting step. -/
def outPerEipErrors : Except (ErrKind × Counters) Counters → Nat
  | Except.ok c => c.per_eip_errors
  | Except.error x => x.2.per_eip_errors

/-- C5 counterexample: a fatal `AccessDenied` `ClientError` DOES increment
`per_eip_errors` (line 175 runs before the fatal-code check of lines
191-200), so the aborting state carries `per_eip_errors = 1`, not 0. -/
theorem fatal_error_counted_cex :
    isAbort (handleError initCounters "eipalloc-1"
      (ErrKind.client "AccessDenied")).2 = true ∧
    outPerEipErrors (handleError initCounters "eipalloc-1"
      (ErrKind.client "AccessDenied")).2 = 1 := by
  decide

/-- C5 amended: `per_eip_errors` is incremented on every `ClientError`,
recoverable or fatal alike — the increment precedes classification — while a
failure that is not a recognized `ClientError` shape never increments it;
after a fatal abort the incremented value is carried only by the propagating
exception state and is never reported, since the summary is skipped. -/
theorem per_eip_errors_increment (c : Counters) (aid : String) (e : ErrKind) :
    outPerEipErrors (handleError c aid e).2 =
      c.per_eip_errors +
        (match e with | ErrKind.client _ => 1 | ErrKind.generic _ => 0) := by
  cases e with
  | client code =>
    simp only [handleError]
    split <;> simp [outPerEipErrors]
  | generic n => simp [handleError, outPerEipErrors]

/-- C6: a managed resource carrying the protect tag/value is skipped as
protected with no release side effect, regardless of its association state
and of dry-run — the deny-list check dominates every later outcome. -/
theorem protected_dominates (cfg : Config) (r : ElasticIp) (c : Counters)
    (hm : _get_tag_value (r.tags.getD []) cfg.managedTagKey = some cfg.managedTagValue)
    (hp : _get_tag_value (r.tags.getD []) cfg.protectTagKey = some cfg.protectTagValue) :
    evaluate cfg r = Disposition.skippedProtected ∧
    processOne cfg c r Behavior.ok =
      ([], Except.ok { c with scanned := c.scanned + 1,
                              skipped_protected := c.skipped_protected + 1 }) := by
  constructor
  · simp [evaluate, hm, hp]
  · simp [processOne, hm, hp]

/-- Witness for C6: the protected fixture, which is also unassociated, is
skipped as protected under non-dry-run. -/
theorem protected_dominates_witness :
    evaluate cfgWet rProt = Disposition.skippedProtected ∧
    processOne cfgWet initCounters rProt Behavior.ok =
      ([], Except.ok { initCounters with scanned := 1, skipped_protected := 1 }) :=
  protected_dominates cfgWet rProt initCounters (by decide) (by decide)

/-- C7: a resource whose tag collection is null or empty, or whose tag at the
managed key is absent or differs from the managed value, is skipped as not
managed, regardless of protection tag and association state; tag lookup is a
total function, so the evaluation cannot raise. -/
theorem not_managed_skipped (cfg : Config) (r : ElasticIp) (c : Counters)
    (h : r.tags = none ∨ r.tags = some [] ∨
      _get_tag_value (r.tags.getD []) cfg.managedTagKey ≠ some cfg.managedTagValue) :
    evaluate cfg r = Disposition.skippedNotManaged ∧
    processOne cfg c r Behavior.ok =
      ([], Except.ok { c with scanned := c.scanned + 1,
                              skipped_not_managed := c.skipped_not_managed + 1 }) := by
  have hm : _get_tag_value (r.tags.getD []) cfg.managedTagKey ≠ some cfg.managedTagValue := by
    rcases h with h | h | h
    · rw [h]; simp [_get_tag_value]
    · rw [h]; simp [_get_tag_value]
    · exact h
  constructor
  · simp [evaluate, hm]
  · simp [processOne, hm]

/-- Witness for C7: the fixture with a null tag collection is skipped as not
managed. -/
theorem not_managed_skipped_witness :
    evaluate cfgWet rUnman = Disposition.skippedNotManaged ∧
    processOne cfgWet initCounters rUnman Behavior.ok =
      ([], Except.ok { initCounters with scanned := 1, skipped_not_managed := 1 }) :=
  not_managed_skipped cfgWet rUnman initCounters (Or.inl rfl)

/-- C8: for a managed, unprotected resource the disposition is
skipped-associated exactly when its bound instance id is present
(`instance_id is not None`), and in that case only the `associated` counter
is incremented and no release side effect is invoked. -/
theorem associated_skipped (cfg : Config) (r : ElasticIp) (c : Counters)
    (hm : _get_tag_value (r.tags.getD []) cfg.managedTagKey = some cfg.managedTagValue)
    (hp : _get_tag_value (r.tags.getD []) cfg.protectTagKey ≠ some cfg.protectTagValue) :
    (evaluate cfg r = Disposition.skippedAssociated ↔ r.instance_id ≠ none) ∧
    (r.instance_id ≠ none →
      processOne cfg c r Behavior.ok =
        ([], Except.ok { c with scanned := c.scanned + 1,
                                associated := c.associated + 1 })) := by
  constructor
  · cases hi : r.instance_id with
    | none =>
      cases hd : cfg.dryRun <;> simp [evaluate, hm, hp, hi, hd]
    | some iid => simp [evaluate, hm, hp, hi]
  · intro hne
    simp [processOne, hm, hp, hne]

/-- Witness for C8: the associated fixture is skipped as associated with no
release invocation. -/
theorem associated_skipped_witness :
    (evaluate cfgWet rAssoc = Disposition.skippedAssociated ↔
      rAssoc.instance_id ≠ none) ∧
    processOne cfgWet initCounters rAssoc Behavior.ok =
      ([], Except.ok { initCounters with scanned := 1, associated := 1 }) :=
  ⟨(associated_skipped cfgWet rAssoc initCounters (by decide) (by decide)).1,
   (associated_skipped cfgWet rAssoc initCounters (by decide) (by decide)).2 (by decide)⟩

/-- C9 counterexample: on a tag list holding the looked-up key twice,
`_get_tag_value` returns the value of the FIRST occurrence, not the last:
last-write-wins fails on this input. -/
theorem tag_lookup_last_write_cex :
    _get_tag_value [⟨some "dup", some "first"⟩, ⟨some "dup", some "second"⟩] "dup" =
      some "first" ∧
    (some "first" : Option String) ≠ some "second" := by
  decide

/-- C9 amended: tag lookup is first-write-wins — for every tag list
containing the looked-up key, the value returned is the value of the FIRST
entry whose key matches, and later duplicates are ignored. -/
theorem tag_lookup_first_wins (pre post : List Tag) (t : Tag) (key : String)
    (hk : t.key = some key)
    (hpre : ∀ u ∈ pre, u.key ≠ some key) :
    _get_tag_value (pre ++ t :: post) key = t.value := by
  induction pre with
  | nil => simp [_get_tag_value, hk]
  | cons u us ih =>
    have hu : u.key ≠ some key := hpre u (by simp)
    simp only [List.cons_append, _get_tag_value]
    rw [if_neg hu]
    exact ih (fun v hv => hpre v (by simp [hv]))

/-- Witness for C9's amended statement: the first "dup" entry wins over a
later duplicate, after a non-matching entry. -/
theorem tag_lookup_first_wins_witness :
    _get_tag_value
      [⟨some "other", some "x"⟩, ⟨some "dup", some "A"⟩, ⟨some "dup", some "B"⟩]
      "dup" = some "A" :=
  tag_lookup_first_wins [⟨some "other", some "x"⟩] [⟨some "dup", some "B"⟩]
    ⟨some "dup", some "A"⟩ "dup" rfl (by decide)

/-- C10: the effective dry-run flag is the payload's `dry_run` value when
present, else the `DRY_RUN` environment value when present, else false; the
resolved string is coerced by case-insensitive comparison to "true", every
other value yielding false (destructive mode). -/
theorem dry_run_resolution (s : String) (envVal : Option String) :
    resolveDryRun (some s) envVal = (strLower s == "true") ∧
    resolveDryRun none (some s) = (strLower s == "true") ∧
    resolveDryRun none none = false :=
  ⟨rfl, rfl, by decide⟩
